import Mathlib

/-!
Shallow embedding of netupvim's source-resolution and conditional-download
subsystem (src/source.go) and its run orchestration (src/main.go).

Modelling conventions:
* Go `time.Time` is modelled as `Int` (nanoseconds since some epoch); the Go
  zero time is the integer `0`, `IsZero` is `= 0`, and `a.After(b)` is `a > b`.
* Go `error` values are the inductive `GoErr`; a Go `(T, error)` return is a
  pair `T × Option GoErr` (with `none` meaning `nil` error) or `Except GoErr T`
  where Go callers only ever use one of the two components.
* The HTTP network is an explicit parameter `net : Request → Except GoErr HTTPResp`;
  functions that can issue requests also return the list of requests they
  issued, so that "no HTTP request / no transfer" claims are statable.
* `regexp.MatchString` is an abstract predicate `nameMatch : String → Bool`.
-/

namespace Netupvim

/-- Go `time.Time`, reduced to an integer instant; `0` is the zero time. -/
abbrev GoTime := Int

/-- The error values of src/source.go (lines 18-26) plus a constructor for
errors originating outside this package (network, filesystem, fmt.Errorf). -/
inductive GoErr where
  | unknownSource
  | sourceNotFound
  | sourceNotModified
  | githubNoRelease
  | githubNoAssets
  | githubIncompleteAsset
  | unexpectedResponse (status : String)
  | otherErr (msg : String)
  deriving DecidableEq, Repr

/-- Error message strings, matching the `errors.New` / `fmt.Errorf` texts in
src/source.go. -/
def GoErr.msg : GoErr → String
  | .unknownSource => "unknown source"
  | .sourceNotFound => "source not found"
  | .sourceNotModified => "source not modified"
  | .githubNoRelease => "absence of github release"
  | .githubNoAssets => "no matched assets in github release"
  | .githubIncompleteAsset => "incomplete github asset"
  | .unexpectedResponse s => "unexpected response: " ++ s
  | .otherErr s => s

/-- A github release asset (read-only view of `github.Asset`): name, download
URL, last-update time, upload state. -/
structure Asset where
  name : String
  downloadURL : String
  updatedAt : GoTime
  state : String
  deriving DecidableEq, Repr

/-- A github release (read-only view of `github.Release`). -/
structure Release where
  draft : Bool
  preRelease : Bool
  assets : List Asset
  deriving DecidableEq, Repr

/-- The asset-scanning loop of `githubSource.fetchAsset` (src/source.go lines
93-99): scan in listed order, keep the first asset whose name nameMatch. -/
def findAsset (nameMatch : String → Bool) : List Asset → Option Asset
  | [] => none
  | a :: rest => if nameMatch a.name then some a else findAsset nameMatch rest

/-- `githubSource.fetchAsset` (src/source.go lines 85-107). `latest` is the
result of the `github.Latest(gs.user, gs.project)` API call, passed in as a
parameter. -/
def fetchAsset (nameMatch : String → Bool) (latest : Except GoErr Release) :
    Except GoErr Asset :=
  match latest with
  | .error e => .error e
  | .ok r =>
    if r.draft || r.preRelease then .error .githubNoRelease
    else
      match findAsset nameMatch r.assets with
      | none => .error .githubNoAssets
      | some t =>
        if t.state ≠ "uploaded" then .error .githubIncompleteAsset
        else .ok t

/-- An HTTP GET request as built by `downloadAsFile` (src/source.go lines
161-168): the URL, and the `If-Modified-Since` header (present exactly when the
pivot is non-zero). -/
structure Request where
  url : String
  ifModifiedSince : Option GoTime
  deriving DecidableEq, Repr

/-- An HTTP response: status code, status text, `ContentLength` (`-1` when
unknown), and the body as the list of chunks `io.Copy` reads from it. Bytes are
`Nat`. -/
structure HTTPResp where
  statusCode : Nat
  status : String
  contentLength : Int
  body : List (List Nat)
  deriving DecidableEq, Repr

/-- Network behaviour: what `http.DefaultClient.Do` returns for a request. -/
def Net := Request → Except GoErr HTTPResp

/-- The request built by `downloadAsFile`: the `If-Modified-Since` header is
set iff `!pivot.IsZero()`. -/
def mkRequest (inURL : String) (pivot : GoTime) : Request :=
  { url := inURL
    ifModifiedSince := if pivot = 0 then none else some pivot }

/-- The sequence of progress calls made by `progressWriter.Write` (src/source.go
lines 217-224) across a download: after the k-th write of `w` bytes, the writer
adds `w` to its running count `n` and invokes `f(n, m)`. The argument list holds
the byte count of each successive write; `n0` is the running count so far. -/
def pwRun (m : Int) : List Nat → Int → List (Int × Int)
  | [], _ => []
  | w :: ws, n0 =>
    let n1 := n0 + (w : Int)
    (n1, m) :: pwRun m ws n1

/-- `saveBody` (src/source.go lines 198-209): create the destination file and
`io.Copy` the response body into it through a `progressWriter` whose `m` field
is `resp.ContentLength`. Returns the bytes written to the file and the list of
progress calls `(curr, max)`. Models the case where every file write succeeds
in full (`os.File.Write` writes the whole buffer or returns an error). -/
def saveBody (resp : HTTPResp) : List Nat × List (Int × Int) :=
  (resp.body.flatten, pwRun resp.contentLength (resp.body.map List.length) 0)

/-- `downloadAsFile` (src/source.go lines 160-183). `reqErr` models
`http.NewRequest` failure on a malformed URL (before any request is issued);
`net` models `http.DefaultClient.Do`. Returns the Go error outcome — with the
written file and progress calls attached on success — together with the list of
HTTP requests issued. -/
def downloadAsFile (reqErr : String → Option GoErr) (net : Net)
    (inURL : String) (pivot : GoTime) :
    Except GoErr (List Nat × List (Int × Int)) × List Request :=
  match reqErr inURL with
  | some e => (.error e, [])
  | none =>
    let req := mkRequest inURL pivot
    match net req with
    | .error e => (.error e, [req])
    | .ok resp =>
      if resp.statusCode = 200 then (.ok (saveBody resp), [req])
      else if resp.statusCode = 304 then (.error .sourceNotModified, [req])
      else (.error (.unexpectedResponse resp.status), [req])

/-- `download` (src/source.go lines 187-196). `dfp` models `downloadFilepath`
(src/source.go lines 152-158), i.e. `url.Parse` plus
`filepath.Join(outdir, filepath.Base(u.Path))`, which depends only on the URL
and the output directory. Returns the Go pair `(path, err)` together with the
requests issued. -/
def download (dfp : String → String → Except GoErr String)
    (reqErr : String → Option GoErr) (net : Net)
    (inURL outdir : String) (pivot : GoTime) :
    (String × Option GoErr) × List Request :=
  match dfp inURL outdir with
  | .error e => (("", some e), [])
  | .ok path =>
    match downloadAsFile reqErr net inURL pivot with
    | (.error e, reqs) => (("", some e), reqs)
    | (.ok _, reqs) => ((path, none), reqs)

/-- `directSource.download` (src/source.go lines 62-64): delegate to `download`
with the source's fixed URL. -/
def directDownload (url : String) (dfp : String → String → Except GoErr String)
    (reqErr : String → Option GoErr) (net : Net)
    (outdir : String) (pivot : GoTime) :
    (String × Option GoErr) × List Request :=
  download dfp reqErr net url outdir pivot

/-- `githubSource.download` (src/source.go lines 74-83): fetch the asset, apply
the local pivot check (`!p.IsZero() && p.After(a.UpdatedAt)`), then delegate to
`download` on the asset's download URL. -/
def githubDownload (nameMatch : String → Bool) (latest : Except GoErr Release)
    (dfp : String → String → Except GoErr String)
    (reqErr : String → Option GoErr) (net : Net)
    (outdir : String) (pivot : GoTime) :
    (String × Option GoErr) × List Request :=
  match fetchAsset nameMatch latest with
  | .error e => (("", some e), [])
  | .ok a =>
    if pivot ≠ 0 ∧ pivot > a.updatedAt then (("", some .sourceNotModified), [])
    else download dfp reqErr net a.downloadURL outdir pivot

/-- `arch.CPU` from the go-arch dependency (not part of this repository):
the architectures the table can key on, plus the unmapped case. -/
inductive CPU where
  | unknownCPU
  | x86
  | amd64
  deriving DecidableEq, Repr

/-- A `githubSource` value: owner, project, and the asset-name pattern (held as
its regexp text). -/
structure GithubSpec where
  user : String
  project : String
  namePat : String
  deriving DecidableEq, Repr

/-- The `source` interface's two implementations (src/source.go lines 56-70). -/
inductive Source where
  | direct (url : String)
  | github (g : GithubSpec)
  deriving DecidableEq, Repr

/-- `sourceType` constants (src/source.go lines 28-34): a Go `int` via `iota`. -/
def releaseSource : Int := 0

def developSource : Int := 1

def canarySource : Int := 2

/-- The static `sources` table (src/source.go lines 109-138): a two-level Go
map `sourceType → arch.CPU → source`, modelled as nested `Option`-valued
lookups. -/
def sources (st : Int) : Option (CPU → Option Source) :=
  if st = releaseSource then some (fun c =>
    match c with
    | .x86 => some (.github ⟨"koron", "vim-kaoriya", "-win32-.*\\.zip$"⟩)
    | .amd64 => some (.github ⟨"koron", "vim-kaoriya", "-win64-.*\\.zip$"⟩)
    | _ => none)
  else if st = developSource then some (fun c =>
    match c with
    | .x86 => some (.direct "http://files.kaoriya.net/vim/vim74-kaoriya-win32.zip")
    | .amd64 => some (.direct "http://files.kaoriya.net/vim/vim74-kaoriya-win64.zip")
    | _ => none)
  else if st = canarySource then some (fun c =>
    match c with
    | .x86 => some (.direct "http://files.kaoriya.net/vim/vim74-kaoriya-win32-test.zip")
    | .amd64 => some (.direct "http://files.kaoriya.net/vim/vim74-kaoriya-win64-test.zip")
    | _ => none)
  else none

/-- `determineSource` (src/source.go lines 140-150): two map lookups, each
failing with `errSourceNotFound` when the key is absent. -/
def determineSource (st : Int) (cpu : CPU) : Except GoErr Source :=
  match sources st with
  | none => .error .sourceNotFound
  | some m =>
    match m cpu with
    | none => .error .sourceNotFound
    | some s => .ok s

/-- `shouldSelfUpdate` (src/main.go lines 70-76): false when the `selfUpdate`
configuration flag is off; otherwise true exactly when
`os.Stat(filepath.Join(targetDir, "netupvim.exe"))` returned a nil error.
`statResult` is that `os.Stat` error. -/
def shouldSelfUpdate (selfUpdate : Bool) (statResult : Option GoErr) : Bool :=
  if !selfUpdate then false
  else statResult.isNone

/-- Which package a `netup.Update` call in `run` is for. -/
inductive PackKind where
  | vim
  | netupvim
  deriving DecidableEq, Repr

/-- The outcomes of the external collaborators `run` (src/main.go lines 78-111)
interacts with: `setup`, the `vimSet` map lookup, the two `netup.Update` calls,
and the `os.Stat` probe inside `shouldSelfUpdate`. -/
structure RunEnv where
  setupErr : Option GoErr
  sourceName : String
  vimSetOK : Bool
  primaryErr : Option GoErr
  selfUpdateFlag : Bool
  statErr : Option GoErr
  selfErr : Option GoErr

/-- What a `run` invocation produced: its returned error, the `netup.Update`
calls it made in order, and the `netup.LogInfo` messages it emitted. -/
structure RunResult where
  err : Option GoErr
  updates : List PackKind
  logs : List String
  deriving DecidableEq, Repr

/-- `run` (src/main.go lines 78-111): setup, primary vim update, then the
guarded self-update whose failure is only logged. -/
def run (env : RunEnv) : RunResult :=
  match env.setupErr with
  | some e => ⟨some e, [], []⟩
  | none =>
    if !env.vimSetOK then
      ⟨some (.otherErr ("invalid source: " ++ env.sourceName)), [], []⟩
    else
      match env.primaryErr with
      | some e => ⟨some e, [.vim], []⟩
      | none =>
        if shouldSelfUpdate env.selfUpdateFlag env.statErr then
          match env.selfErr with
          | some e =>
            ⟨none, [.vim, .netupvim],
              ["trying to update netupvim",
               "failed to udate netupvim: " ++ e.msg]⟩
          | none => ⟨none, [.vim, .netupvim], ["trying to update netupvim"]⟩
        else ⟨none, [.vim], []⟩

theorem findAsset_none (nameMatch : String → Bool) (l : List Asset)
    (h : ∀ a ∈ l, nameMatch a.name = false) : findAsset nameMatch l = none := by
  induction l with
  | nil => rfl
  | cons a rest ih =>
    have ha := h a (List.mem_cons_self a rest)
    simp only [findAsset, ha, Bool.false_eq_true, if_false]
    exact ih fun b hb => h b (List.mem_cons_of_mem a hb)

theorem findAsset_first (nameMatch : String → Bool) (l : List Asset)
    (i : Nat) (hi : i < l.length)
    (hm : nameMatch (l.get ⟨i, hi⟩).name = true)
    (hb : ∀ j (hj : j < i), nameMatch (l.get ⟨j, Nat.lt_trans hj hi⟩).name = false) :
    findAsset nameMatch l = some (l.get ⟨i, hi⟩) := by
  induction l generalizing i with
  | nil => exact absurd hi (Nat.not_lt_zero i)
  | cons a rest ih =>
    cases i with
    | zero =>
      simp only [List.get] at hm
      simp [findAsset, hm]
    | succ k =>
      have ha : nameMatch a.name = false := hb 0 (Nat.succ_pos k)
      have hk : k < rest.length := Nat.lt_of_succ_lt_succ hi
      have hm2 : nameMatch (rest.get ⟨k, hk⟩).name = true := hm
      have hb2 : ∀ j (hj : j < k),
          nameMatch (rest.get ⟨j, Nat.lt_trans hj hk⟩).name = false := by
        intro j hj
        exact hb (j + 1) (Nat.succ_lt_succ hj)
      simp only [findAsset, ha, Bool.false_eq_true, if_false]
      exact ih k hk hm2 hb2

/-- Claim C1: for a hosted-release fetch whose latest release is neither draft
nor pre-release, `fetchAsset` scans the asset list in listed order and selects
the first asset whose name matches the pattern; if no asset matches it fails
with the no-matching-asset error, and if the first matching asset's upload
state is not "uploaded" it fails with the incomplete-asset error. -/
theorem fetchAsset_first_match (nameMatch : String → Bool) (r : Release)
    (hd : r.draft = false) (hp : r.preRelease = false) :
    ((∀ a ∈ r.assets, nameMatch a.name = false) →
       fetchAsset nameMatch (.ok r) = .error .githubNoAssets) ∧
    (∀ i (hi : i < r.assets.length),
       nameMatch (r.assets.get ⟨i, hi⟩).name = true →
       (∀ j (hj : j < i),
          nameMatch (r.assets.get ⟨j, Nat.lt_trans hj hi⟩).name = false) →
       fetchAsset nameMatch (.ok r) =
         (if (r.assets.get ⟨i, hi⟩).state = "uploaded"
          then .ok (r.assets.get ⟨i, hi⟩)
          else .error .githubIncompleteAsset)) := by
  constructor
  · intro h
    simp only [fetchAsset, hd, hp, Bool.or_self, Bool.false_eq_true, if_false,
      findAsset_none nameMatch r.assets h]
  · intro i hi hm hb
    have hfind := findAsset_first nameMatch r.assets i hi hm hb
    by_cases hs : (r.assets.get ⟨i, hi⟩).state = "uploaded"
    · simp only [fetchAsset, hd, hp, Bool.or_self, Bool.false_eq_true, if_false,
        hfind, if_pos hs, ne_eq, hs, not_true_eq_false]
      simp [hs]
    · simp only [fetchAsset, hd, hp, Bool.or_self, Bool.false_eq_true, if_false,
        hfind]
      simp [hs]

/-- Closed instance of `fetchAsset_first_match`: with assets named "a32" and
"b64" and a pattern matching only "b64", the second asset is selected. -/
theorem fetchAsset_first_match_witness :
    fetchAsset (fun n => n == "b64")
        (.ok ⟨false, false,
          [⟨"a32", "u1", 1, "uploaded"⟩, ⟨"b64", "u2", 2, "uploaded"⟩]⟩) =
      .ok ⟨"b64", "u2", 2, "uploaded"⟩ := by
  have h := (fetchAsset_first_match (fun n => n == "b64")
      ⟨false, false,
       [⟨"a32", "u1", 1, "uploaded"⟩, ⟨"b64", "u2", 2, "uploaded"⟩]⟩
      rfl rfl).2 1 (by decide) (by decide)
      (by
        intro j hj
        have hj0 : j = 0 := by omega
        subst hj0
        rfl)
  simpa using h

/-- Claim C2: a hosted-release fetch with a non-zero pivot strictly after the
selected asset's last-updated time signals `NotModified`, issues no HTTP
request, and transfers nothing (empty path, no request issued). -/
theorem githubDownload_notModified (nameMatch : String → Bool)
    (latest : Except GoErr Release)
    (dfp : String → String → Except GoErr String)
    (reqErr : String → Option GoErr) (net : Net)
    (outdir : String) (pivot : GoTime) (a : Asset)
    (ha : fetchAsset nameMatch latest = .ok a)
    (h0 : pivot ≠ 0) (hafter : pivot > a.updatedAt) :
    githubDownload nameMatch latest dfp reqErr net outdir pivot =
      (("", some .sourceNotModified), []) := by
  unfold githubDownload
  rw [ha]
  simp [h0, hafter]

/-- Closed instance of `githubDownload_notModified` at pivot 5 and an asset
updated at time 2. -/
theorem githubDownload_notModified_witness :
    githubDownload (fun _ => true)
        (.ok ⟨false, false, [⟨"b64", "u2", 2, "uploaded"⟩]⟩)
        (fun _ _ => .ok "p") (fun _ => none)
        (fun _ => .error (.otherErr "network down")) "out" 5 =
      (("", some .sourceNotModified), []) :=
  githubDownload_notModified (fun _ => true)
    (.ok ⟨false, false, [⟨"b64", "u2", 2, "uploaded"⟩]⟩)
    (fun _ _ => .ok "p") (fun _ => none)
    (fun _ => .error (.otherErr "network down")) "out" 5
    ⟨"b64", "u2", 2, "uploaded"⟩ rfl (by decide) (by decide)

/-- Claim C6: a hosted-release fetch whose latest release is draft or
pre-release fails with the no-eligible-release error and performs zero
transfer attempts (no request issued, empty path). -/
theorem githubDownload_draft (nameMatch : String → Bool) (r : Release)
    (dfp : String → String → Except GoErr String)
    (reqErr : String → Option GoErr) (net : Net)
    (outdir : String) (pivot : GoTime)
    (h : r.draft = true ∨ r.preRelease = true) :
    githubDownload nameMatch (.ok r) dfp reqErr net outdir pivot =
      (("", some .githubNoRelease), []) := by
  unfold githubDownload fetchAsset
  rcases h with h | h <;> simp [h]

/-- Closed instance of `githubDownload_draft` on a draft release. -/
theorem githubDownload_draft_witness :
    githubDownload (fun _ => true)
        (.ok ⟨true, false, [⟨"b64", "u2", 2, "uploaded"⟩]⟩)
        (fun _ _ => .ok "p") (fun _ => none)
        (fun _ => .error (.otherErr "network down")) "out" 0 =
      (("", some .githubNoRelease), []) :=
  githubDownload_draft (fun _ => true)
    ⟨true, false, [⟨"b64", "u2", 2, "uploaded"⟩]⟩
    (fun _ _ => .ok "p") (fun _ => none)
    (fun _ => .error (.otherErr "network down")) "out" 0 (Or.inl rfl)

/-- Claim C10: `shouldSelfUpdate` returns false whenever the `os.Stat` probe of
netupvim.exe returns any error value — not only the not-exist error — so a
permission or I/O error silently disables self-update. -/
theorem shouldSelfUpdate_false_on_stat_error (sel : Bool) (e : GoErr) :
    shouldSelfUpdate sel (some e) = false := by
  cases sel <;> rfl

theorem pwRun_snd (m : Int) (ws : List Nat) (n0 : Int) :
    ∀ c ∈ pwRun m ws n0, c.2 = m := by
  induction ws generalizing n0 with
  | nil => intro c hc; cases hc
  | cons w ws ih =>
    intro c hc
    rcases List.mem_cons.mp hc with h | h
    · subst h; rfl
    · exact ih (n0 + (w : Int)) c h

theorem pwRun_fst_lb (m : Int) (ws : List Nat) (n0 : Int) :
    ∀ c ∈ pwRun m ws n0, n0 ≤ c.1 := by
  induction ws generalizing n0 with
  | nil => intro c hc; cases hc
  | cons w ws ih =>
    intro c hc
    rcases List.mem_cons.mp hc with h | h
    · subst h; simp
    · have h1 := ih (n0 + (w : Int)) c h
      omega

theorem pwRun_chain (m : Int) (ws : List Nat) (n0 : Int) :
    (pwRun m ws n0).Chain' (fun a b => a.1 ≤ b.1) := by
  induction ws generalizing n0 with
  | nil => exact List.chain'_nil
  | cons w ws ih =>
    apply List.chain'_cons'.mpr
    constructor
    · intro y hy
      have hmem : y ∈ pwRun m ws (n0 + (w : Int)) :=
        List.mem_of_mem_head? hy
      exact pwRun_fst_lb m ws (n0 + (w : Int)) y hmem
    · exact ih (n0 + (w : Int))

theorem pwRun_ne_nil (m : Int) (w : Nat) (ws : List Nat) (n0 : Int) :
    pwRun m (w :: ws) n0 ≠ [] := by
  simp [pwRun]

theorem getLast?_cons_of_ne {α : Type} (x : α) (l : List α) (h : l ≠ []) :
    (x :: l).getLast? = l.getLast? := by
  cases l with
  | nil => exact absurd rfl h
  | cons y t => exact List.getLast?_cons_cons

theorem pwRun_getLast (m : Int) (ws : List Nat) (n0 : Int) (h : ws ≠ []) :
    (pwRun m ws n0).getLast? = some (n0 + (ws.sum : Int), m) := by
  induction ws generalizing n0 with
  | nil => exact absurd rfl h
  | cons w ws ih =>
    cases ws with
    | nil => simp [pwRun]
    | cons w2 ws2 =>
      have hstep : pwRun m (w :: w2 :: ws2) n0 =
          (n0 + (w : Int), m) :: pwRun m (w2 :: ws2) (n0 + (w : Int)) := rfl
      rw [hstep,
        getLast?_cons_of_ne _ _ (pwRun_ne_nil m w2 ws2 (n0 + (w : Int))),
        ih (n0 + (w : Int)) (List.cons_ne_nil w2 ws2)]
      congr 2
      push_cast [List.map_cons, List.sum_cons]
      ring

/-- Claim C7: across the writes of one download, the progress callback's
`bytesSoFar` is monotonically non-decreasing, its `totalBytes` argument is
always the response's content length, and the final invocation's `bytesSoFar`
equals the total number of bytes written to the destination file. -/
theorem saveBody_progress (resp : HTTPResp) :
    ((saveBody resp).2.Chain' fun a b => a.1 ≤ b.1) ∧
    (∀ c ∈ (saveBody resp).2, c.2 = resp.contentLength) ∧
    (resp.body ≠ [] →
       (saveBody resp).2.getLast? =
         some (((saveBody resp).1.length : Int), resp.contentLength)) := by
  refine ⟨pwRun_chain _ _ _, pwRun_snd _ _ _, ?_⟩
  intro hne
  have hmap : resp.body.map List.length ≠ [] := by simpa using hne
  have h := pwRun_getLast resp.contentLength (resp.body.map List.length) 0 hmap
  show (pwRun resp.contentLength (resp.body.map List.length) 0).getLast? = _
  rw [h]
  congr 2
  show (0 : Int) + ((resp.body.map List.length).sum : Int) =
    (resp.body.flatten.length : Int)
  rw [List.length_flatten]
  omega

/-- Closed instance of `saveBody_progress`: two chunks of sizes 2 and 1 yield a
final progress call of (3, contentLength). -/
theorem saveBody_progress_witness :
    (saveBody ⟨200, "200 OK", 3, [[7, 8], [9]]⟩).2.getLast? = some (3, 3) := by
  have h := (saveBody_progress ⟨200, "200 OK", 3, [[7, 8], [9]]⟩).2.2
    (by decide)
  simpa using h

theorem downloadAsFile_eq (reqErr : String → Option GoErr) (net : Net)
    (inURL : String) (pivot : GoTime) (resp : HTTPResp)
    (hreq : reqErr inURL = none)
    (hnet : net (mkRequest inURL pivot) = .ok resp) :
    downloadAsFile reqErr net inURL pivot =
      (if resp.statusCode = 200 then
        (.ok (saveBody resp), [mkRequest inURL pivot])
       else if resp.statusCode = 304 then
        (.error .sourceNotModified, [mkRequest inURL pivot])
       else
        (.error (.unexpectedResponse resp.status), [mkRequest inURL pivot])) := by
  unfold downloadAsFile
  simp only [hreq, hnet]

/-- Claim C3: for the conditional downloader, an HTTP 200 response streams the
body to the destination file and `download` returns its path; an HTTP 304
response signals `NotModified` and writes nothing; any other status fails with
the unexpected-response error carrying the response's status text. -/
theorem downloadAsFile_response_cases
    (dfp : String → String → Except GoErr String)
    (reqErr : String → Option GoErr) (net : Net)
    (inURL outdir : String) (pivot : GoTime) (path : String) (resp : HTTPResp)
    (hdfp : dfp inURL outdir = .ok path)
    (hreq : reqErr inURL = none)
    (hnet : net (mkRequest inURL pivot) = .ok resp) :
    (resp.statusCode = 200 →
       downloadAsFile reqErr net inURL pivot =
         (.ok (saveBody resp), [mkRequest inURL pivot]) ∧
       (download dfp reqErr net inURL outdir pivot).1 = (path, none)) ∧
    (resp.statusCode = 304 →
       (downloadAsFile reqErr net inURL pivot).1 = .error .sourceNotModified ∧
       (download dfp reqErr net inURL outdir pivot).1 =
         ("", some .sourceNotModified)) ∧
    (resp.statusCode ≠ 200 → resp.statusCode ≠ 304 →
       (downloadAsFile reqErr net inURL pivot).1 =
         .error (.unexpectedResponse resp.status) ∧
       (download dfp reqErr net inURL outdir pivot).1 =
         ("", some (.unexpectedResponse resp.status))) := by
  have hd := downloadAsFile_eq reqErr net inURL pivot resp hreq hnet
  refine ⟨?_, ?_, ?_⟩
  · intro h200
    have hd2 : downloadAsFile reqErr net inURL pivot =
        (.ok (saveBody resp), [mkRequest inURL pivot]) := by
      rw [hd, if_pos h200]
    refine ⟨hd2, ?_⟩
    unfold download
    rw [hdfp, hd2]
  · intro h304
    have hd2 : downloadAsFile reqErr net inURL pivot =
        (.error .sourceNotModified, [mkRequest inURL pivot]) := by
      rw [hd, if_neg (by omega), if_pos h304]
    refine ⟨by rw [hd2], ?_⟩
    unfold download
    rw [hdfp, hd2]
  · intro hne1 hne2
    have hd2 : downloadAsFile reqErr net inURL pivot =
        (.error (.unexpectedResponse resp.status), [mkRequest inURL pivot]) := by
      rw [hd, if_neg hne1, if_neg hne2]
    refine ⟨by rw [hd2], ?_⟩
    unfold download
    rw [hdfp, hd2]

/-- Closed instance of `downloadAsFile_response_cases`: a 200 response makes
`download` return the derived path with a nil error. -/
theorem downloadAsFile_response_cases_witness :
    (download (fun _ _ => .ok "out/f.zip") (fun _ => none)
        (fun _ => .ok ⟨200, "200 OK", 3, [[1, 2, 3]]⟩) "u" "out" 0).1 =
      ("out/f.zip", none) :=
  ((downloadAsFile_response_cases (fun _ _ => .ok "out/f.zip") (fun _ => none)
      (fun _ => .ok ⟨200, "200 OK", 3, [[1, 2, 3]]⟩) "u" "out" 0 "out/f.zip"
      ⟨200, "200 OK", 3, [[1, 2, 3]]⟩ rfl rfl rfl).1 rfl).2

/-- Claim C4: every (channel, architecture) pair present in the static source
table resolves to a source, and every pair with an unmapped channel or
architecture fails with the source-not-found error. -/
theorem determineSource_table (st : Int) (cpu : CPU) :
    (((st = releaseSource ∨ st = developSource ∨ st = canarySource) ∧
        (cpu = CPU.x86 ∨ cpu = CPU.amd64)) →
       ∃ s, determineSource st cpu = .ok s) ∧
    (¬((st = releaseSource ∨ st = developSource ∨ st = canarySource) ∧
        (cpu = CPU.x86 ∨ cpu = CPU.amd64)) →
       determineSource st cpu = .error .sourceNotFound) := by
  constructor
  · rintro ⟨hst, hcpu⟩
    rcases hst with h | h | h <;> subst h <;>
      rcases hcpu with h | h <;> subst h <;> exact ⟨_, rfl⟩
  · intro hn
    by_cases hst : st = releaseSource ∨ st = developSource ∨ st = canarySource
    · have hcpu : ¬(cpu = CPU.x86 ∨ cpu = CPU.amd64) := fun hc => hn ⟨hst, hc⟩
      have hcu : cpu = CPU.unknownCPU := by
        cases cpu
        · rfl
        · exact absurd (Or.inl rfl) hcpu
        · exact absurd (Or.inr rfl) hcpu
      subst hcu
      rcases hst with h | h | h <;> subst h <;> rfl
    · push_neg at hst
      obtain ⟨h1, h2, h3⟩ := hst
      unfold determineSource sources
      rw [if_neg h1, if_neg h2, if_neg h3]

/-- Closed instance of `determineSource_table`: the release channel on amd64
resolves. -/
theorem determineSource_table_witness :
    ∃ s, determineSource releaseSource CPU.amd64 = .ok s :=
  (determineSource_table releaseSource CPU.amd64).1 ⟨Or.inl rfl, Or.inr rfl⟩

/-- Claim C5: the self-update call happens exactly when setup and the vimSet
lookup succeeded, the primary update returned nil, the self-update flag is on,
and the stat of netupvim.exe succeeded; if any of these fails there is no
second update call. -/
theorem run_selfUpdate_iff (env : RunEnv) :
    PackKind.netupvim ∈ (run env).updates ↔
      (env.setupErr = none ∧ env.vimSetOK = true ∧ env.primaryErr = none ∧
       env.selfUpdateFlag = true ∧ env.statErr = none) := by
  obtain ⟨se, sn, vok, pe, sf, st, sl⟩ := env
  cases se <;> cases pe <;> cases vok <;> cases sf <;> cases st <;> cases sl <;>
    simp [run, shouldSelfUpdate]

/-- Claim C8: when the primary update succeeds and the self-update call is
attempted and fails, the failure is logged but `run` still returns a nil
error. -/
theorem run_selfUpdate_failure_logged (env : RunEnv) (e : GoErr)
    (h1 : env.setupErr = none) (h2 : env.vimSetOK = true)
    (h3 : env.primaryErr = none)
    (h4 : shouldSelfUpdate env.selfUpdateFlag env.statErr = true)
    (h5 : env.selfErr = some e) :
    (run env).err = none ∧
    PackKind.netupvim ∈ (run env).updates ∧
    ("failed to udate netupvim: " ++ e.msg) ∈ (run env).logs := by
  simp [run, h1, h2, h3, h4, h5]

/-- Closed instance of `run_selfUpdate_failure_logged`: a failing self-update
still yields a nil run error. -/
theorem run_selfUpdate_failure_logged_witness :
    (run ⟨none, "release", true, none, true, none,
        some (.otherErr "boom")⟩).err = none :=
  (run_selfUpdate_failure_logged
    ⟨none, "release", true, none, true, none, some (.otherErr "boom")⟩
    (.otherErr "boom") rfl rfl rfl rfl rfl).1

theorem download_shape (dfp : String → String → Except GoErr String)
    (reqErr : String → Option GoErr) (net : Net)
    (inURL outdir : String) (pivot : GoTime) :
    (∃ e, (download dfp reqErr net inURL outdir pivot).1 = ("", some e)) ∨
    (∃ path res, dfp inURL outdir = .ok path ∧
       (downloadAsFile reqErr net inURL pivot).1 = .ok res ∧
       (download dfp reqErr net inURL outdir pivot).1 = (path, none)) := by
  unfold download
  cases hdfp : dfp inURL outdir with
  | error e => exact Or.inl ⟨e, rfl⟩
  | ok path =>
    cases hda : downloadAsFile reqErr net inURL pivot with
    | mk r reqs =>
      cases r with
      | error e => exact Or.inl ⟨e, rfl⟩
      | ok v => exact Or.inr ⟨path, v, rfl, rfl, rfl⟩

theorem githubDownload_shape (nameMatch : String → Bool)
    (latest : Except GoErr Release)
    (dfp : String → String → Except GoErr String)
    (reqErr : String → Option GoErr) (net : Net)
    (outdir : String) (pivot : GoTime) :
    (∃ e, (githubDownload nameMatch latest dfp reqErr net outdir pivot).1 =
       ("", some e)) ∨
    (∃ a, fetchAsset nameMatch latest = .ok a ∧
       githubDownload nameMatch latest dfp reqErr net outdir pivot =
         download dfp reqErr net a.downloadURL outdir pivot) := by
  unfold githubDownload
  cases hfa : fetchAsset nameMatch latest with
  | error e => exact Or.inl ⟨e, rfl⟩
  | ok a =>
    by_cases hp : pivot ≠ 0 ∧ pivot > a.updatedAt
    · refine Or.inl ⟨.sourceNotModified, ?_⟩
      show (if pivot ≠ 0 ∧ pivot > a.updatedAt then
          (("", some GoErr.sourceNotModified), ([] : List Request))
        else download dfp reqErr net a.downloadURL outdir pivot).1 = _
      rw [if_pos hp]
    · refine Or.inr ⟨a, rfl, ?_⟩
      show (if pivot ≠ 0 ∧ pivot > a.updatedAt then
          (("", some GoErr.sourceNotModified), ([] : List Request))
        else download dfp reqErr net a.downloadURL outdir pivot) = _
      rw [if_neg hp]

/-- Claim C9: for `download`, `githubSource.download` and
`directSource.download`, an error outcome always comes with an empty path, and
a non-empty path comes only with a nil error after `downloadAsFile` completed
without error. -/
theorem download_no_path_with_error (nameMatch : String → Bool)
    (latest : Except GoErr Release) (dUrl : String)
    (dfp : String → String → Except GoErr String)
    (reqErr : String → Option GoErr) (net : Net)
    (inURL outdir : String) (pivot : GoTime) :
    (((download dfp reqErr net inURL outdir pivot).1.2).isSome = true →
       (download dfp reqErr net inURL outdir pivot).1.1 = "") ∧
    ((download dfp reqErr net inURL outdir pivot).1.1 ≠ "" →
       (download dfp reqErr net inURL outdir pivot).1.2 = none ∧
       ∃ res, (downloadAsFile reqErr net inURL pivot).1 = .ok res) ∧
    (((githubDownload nameMatch latest dfp reqErr net outdir pivot).1.2).isSome
       = true →
       (githubDownload nameMatch latest dfp reqErr net outdir pivot).1.1 = "") ∧
    (((directDownload dUrl dfp reqErr net outdir pivot).1.2).isSome = true →
       (directDownload dUrl dfp reqErr net outdir pivot).1.1 = "") := by
  have hdl := download_shape dfp reqErr net inURL outdir pivot
  refine ⟨?_, ?_, ?_, ?_⟩
  · intro hsome
    rcases hdl with ⟨e, he⟩ | ⟨path, res, _, _, hok⟩
    · rw [he]
    · rw [hok] at hsome
      simp at hsome
  · intro hne
    rcases hdl with ⟨e, he⟩ | ⟨path, res, _, hda, hok⟩
    · rw [he] at hne
      simp at hne
    · exact ⟨by rw [hok], res, hda⟩
  · intro hsome
    rcases githubDownload_shape nameMatch latest dfp reqErr net outdir pivot
      with ⟨e, he⟩ | ⟨a, _, heq⟩
    · rw [he]
    · rcases download_shape dfp reqErr net a.downloadURL outdir pivot
        with ⟨e, he⟩ | ⟨path, res, _, _, hok⟩
      · rw [heq, he]
      · rw [heq, hok] at hsome
        simp at hsome
  · intro hsome
    rcases download_shape dfp reqErr net dUrl outdir pivot
      with ⟨e, he⟩ | ⟨path, res, _, _, hok⟩
    · show (download dfp reqErr net dUrl outdir pivot).1.1 = ""
      rw [he]
    · exfalso
      have : ((download dfp reqErr net dUrl outdir pivot).1.2).isSome = true :=
        hsome
      rw [hok] at this
      simp at this

/-- Closed instance of `download_no_path_with_error`: a failing filepath
derivation yields an empty path. -/
theorem download_no_path_with_error_witness :
    (download (fun _ _ => .error (.otherErr "bad url")) (fun _ => none)
        (fun _ => .error (.otherErr "net down")) "u" "o" 0).1.1 = "" :=
  (download_no_path_with_error (fun _ => true) (.error (.otherErr "api"))
    "d" (fun _ _ => .error (.otherErr "bad url")) (fun _ => none)
    (fun _ => .error (.otherErr "net down")) "u" "o" 0).1 rfl

end Netupvim
